import Mathlib

/-!
Verification of the inter-night association engine of the
Asteroids_and_Associations repository, as a shallow embedding.

Dataframes are embedded as lists of row structures; the numeric columns
use `Int` (identifiers, nights) and `Rat` (coordinates, dates,
magnitudes).  External library calls (astropy range query, healpix,
arccos geometry) are abstracted as function parameters constrained only
by their documented contracts.
-/

namespace AsteroidAssoc

/-! ## Sorted unique identifier lists (embedding of `np.unique`) -/

/-- Insert an integer into a strictly sorted duplicate-free list,
keeping it sorted and duplicate free. -/
def insertSorted (x : Int) : List Int → List Int
  | [] => [x]
  | y :: ys => if x < y then x :: y :: ys else if x = y then y :: ys else y :: insertSorted x ys

/-- Embedding of `np.unique`: the sorted list of distinct values of a list. -/
def sortedUnique (l : List Int) : List Int := l.foldr insertSorted []

/-- Index of the first occurrence of a value in a list
(embedding of the lookup in the `translate_tr` dictionary built by
`align_trajectory_id`, and of positional bookkeeping elsewhere). -/
def idxOf (x : Int) : List Int → Nat
  | [] => 0
  | y :: ys => if x = y then 0 else idxOf x ys + 1

theorem mem_insertSorted {x a : Int} {l : List Int} :
    a ∈ insertSorted x l ↔ a = x ∨ a ∈ l := by
  induction l with
  | nil => simp [insertSorted]
  | cons y ys ih =>
      by_cases h1 : x < y
      · simp [insertSorted, h1]
      · by_cases h2 : x = y
        · subst h2
          simp [insertSorted, h1]
        · simp [insertSorted, h1, h2, ih]
          tauto

theorem pairwise_insertSorted {x : Int} {l : List Int}
    (h : l.Pairwise (· < ·)) : (insertSorted x l).Pairwise (· < ·) := by
  induction l with
  | nil => simp [insertSorted]
  | cons y ys ih =>
      rcases List.pairwise_cons.mp h with ⟨hy, hys⟩
      by_cases h1 : x < y
      · rw [insertSorted, if_pos h1]
        refine List.pairwise_cons.mpr ⟨?_, h⟩
        intro a ha
        rcases List.mem_cons.mp ha with rfl | ha
        · exact h1
        · exact lt_trans h1 (hy a ha)
      · by_cases h2 : x = y
        · subst h2
          rw [insertSorted, if_neg h1, if_pos rfl]
          exact h
        · rw [insertSorted, if_neg h1, if_neg h2]
          have hyx : y < x := by omega
          refine List.pairwise_cons.mpr ⟨?_, ih hys⟩
          intro a ha
          rcases mem_insertSorted.mp ha with rfl | ha
          · exact hyx
          · exact hy a ha

theorem sortedUnique_pairwise (l : List Int) :
    (sortedUnique l).Pairwise (· < ·) := by
  induction l with
  | nil => simp [sortedUnique]
  | cons y ys ih => exact pairwise_insertSorted ih

theorem mem_sortedUnique {a : Int} {l : List Int} :
    a ∈ sortedUnique l ↔ a ∈ l := by
  induction l with
  | nil => simp [sortedUnique]
  | cons y ys ih =>
      show a ∈ insertSorted y (sortedUnique ys) ↔ _
      rw [mem_insertSorted]
      simp [ih]

theorem idxOf_lt_length {x : Int} {l : List Int} (h : x ∈ l) :
    idxOf x l < l.length := by
  induction l with
  | nil => cases h
  | cons y ys ih =>
      by_cases hxy : x = y
      · simp [idxOf, hxy]
      · rcases List.mem_cons.mp h with rfl | h
        · exact absurd rfl hxy
        · simp only [idxOf, hxy, if_false, List.length_cons]
          exact Nat.succ_lt_succ (ih h)

theorem idxOf_strictMono {x y : Int} {l : List Int}
    (hl : l.Pairwise (· < ·)) (hx : x ∈ l) (hy : y ∈ l) (hxy : x < y) :
    idxOf x l < idxOf y l := by
  induction l with
  | nil => cases hx
  | cons a t ih =>
      rcases List.pairwise_cons.mp hl with ⟨ha, ht⟩
      by_cases hxa : x = a
      · subst hxa
        have hyne : y ≠ x := ne_of_gt hxy
        rcases List.mem_cons.mp hy with rfl | hyt
        · exact absurd rfl hyne
        · simp [idxOf, hyne]
      · have hxt : x ∈ t := by
          rcases List.mem_cons.mp hx with rfl | h
          · exact absurd rfl hxa
          · exact h
        have hya : y ≠ a := by
          intro h
          subst h
          exact absurd (ha x hxt) (not_lt_of_gt hxy)
        have hyt : y ∈ t := by
          rcases List.mem_cons.mp hy with rfl | h
          · exact absurd rfl hya
          · exact h
        simp only [idxOf, hxa, hya, if_false]
        exact Nat.succ_lt_succ (ih ht hxt hyt)

theorem idxOf_getElem {l : List Int} (hl : l.Pairwise (· < ·))
    (k : Nat) (hk : k < l.length) : idxOf l[k] l = k := by
  induction l generalizing k with
  | nil => cases hk
  | cons a t ih =>
      rcases List.pairwise_cons.mp hl with ⟨ha, ht⟩
      cases k with
      | zero => simp [idxOf]
      | succ n =>
          have hn : n < t.length := Nat.lt_of_succ_lt_succ hk
          have hmem : t[n] ∈ t := List.getElem_mem hn
          have hne : t[n] ≠ a := ne_of_gt (ha _ hmem)
          simp only [List.getElem_cons_succ, idxOf, hne, if_false]
          exact congrArg Nat.succ (ih ht n hn)

theorem sorted_eq_of_mem_iff :
    ∀ {l1 l2 : List Int}, l1.Pairwise (· < ·) → l2.Pairwise (· < ·) →
      (∀ a, a ∈ l1 ↔ a ∈ l2) → l1 = l2 := by
  intro l1
  induction l1 with
  | nil =>
      intro l2 _ _ hmem
      cases l2 with
      | nil => rfl
      | cons b t2 => exact absurd ((hmem b).mpr (List.mem_cons_self b t2)) (List.not_mem_nil b)
  | cons a t1 ih =>
      intro l2 h1 h2 hmem
      cases l2 with
      | nil => exact absurd ((hmem a).mp (List.mem_cons_self a t1)) (List.not_mem_nil a)
      | cons b t2 =>
          rcases List.pairwise_cons.mp h1 with ⟨ha, ht1⟩
          rcases List.pairwise_cons.mp h2 with ⟨hb, ht2⟩
          have hab : a = b := by
            rcases List.mem_cons.mp ((hmem a).mp (List.mem_cons_self a t1)) with h | h
            · exact h
            · rcases List.mem_cons.mp ((hmem b).mpr (List.mem_cons_self b t2)) with h9 | h9
              · exact h9.symm
              · exact absurd (lt_trans (hb a h) (ha b h9)) (lt_irrefl b)
          subst hab
          have htails : ∀ c, c ∈ t1 ↔ c ∈ t2 := by
            intro c
            constructor
            · intro hc
              rcases List.mem_cons.mp ((hmem c).mp (List.mem_cons_of_mem a hc)) with h | h
              · exact absurd (ha c hc) (h ▸ lt_irrefl a)
              · exact h
            · intro hc
              rcases List.mem_cons.mp ((hmem c).mpr (List.mem_cons_of_mem a hc)) with h | h
              · exact absurd (hb c hc) (h ▸ lt_irrefl a)
              · exact h
          exact congrArg (a :: ·) (ih ht1 ht2 htails)

/-! ## Rows of the fink_fat dataframes

An observation row as used by `fink_fat/associations/inter_night_associations.py`:
the columns relevant to the verified functions are the unique candidate
identifier `candid`, the night identifier `nid`, the (scalar) trajectory
identifier `trajectory_id`, and the `not_updated` orbit-fit flag. -/

structure Alert where
  candid : Int
  nid : Int
  trajectory_id : Int
  not_updated : Bool
deriving DecidableEq, Repr

/-- The list of trajectory identifiers of a dataframe, in row order
(the column `trajectories["trajectory_id"]`). -/
def tidList (df : List Alert) : List Int := df.map (·.trajectory_id)

/-- Embedding of `align_trajectory_id`
(src/fink_fat/associations/inter_night_associations.py, lines 178-229):
`tr_id = np.unique(trajectories["trajectory_id"])` is the sorted list of
distinct identifiers, `translate_tr` maps each old identifier to its
position in that sorted list, and every row's identifier is replaced by
its translation. -/
def align_trajectory_id (df : List Alert) : List Alert :=
  let tr_id := sortedUnique (tidList df)
  df.map (fun r => { r with trajectory_id := (idxOf r.trajectory_id tr_id : Int) })

theorem tidList_align (df : List Alert) :
    tidList (align_trajectory_id df) =
      (tidList df).map (fun x => (idxOf x (sortedUnique (tidList df)) : Int)) := by
  simp [align_trajectory_id, tidList, Function.comp]

/-- The list `[0, 1, ..., n-1]` of integers: the dense identifier range. -/
def castRange (n : Nat) : List Int := (List.range n).map Int.ofNat

theorem pairwise_castRange (n : Nat) :
    (castRange n).Pairwise (· < ·) := by
  refine List.Pairwise.map _ ?_ (List.pairwise_lt_range n)
  intro a b hab
  exact Int.ofNat_lt.mpr hab

/-- Identifier density after alignment: the distinct identifiers of the
output of `align_trajectory_id` are exactly `0, 1, ..., n-1` where `n` is
the number of distinct identifiers of the input. -/
theorem sortedUnique_align (df : List Alert) :
    sortedUnique (tidList (align_trajectory_id df)) =
      castRange (sortedUnique (tidList df)).length := by
  set su := sortedUnique (tidList df) with hsu
  apply sorted_eq_of_mem_iff (sortedUnique_pairwise _) (pairwise_castRange _)
  intro a
  rw [mem_sortedUnique, tidList_align]
  constructor
  · intro ha
    rcases List.mem_map.mp ha with ⟨x, hx, rfl⟩
    have hxsu : x ∈ su := mem_sortedUnique.mpr hx
    refine List.mem_map.mpr ⟨idxOf x su, List.mem_range.mpr ?_, rfl⟩
    exact idxOf_lt_length hxsu
  · intro ha
    rcases List.mem_map.mp ha with ⟨k, hk, rfl⟩
    have hk9 : k < su.length := List.mem_range.mp hk
    have hmem : su[k] ∈ su := List.getElem_mem hk9
    have hmem9 : su[k] ∈ tidList df := mem_sortedUnique.mp hmem
    refine List.mem_map.mpr ⟨su[k], hmem9, ?_⟩
    rw [idxOf_getElem (sortedUnique_pairwise _) k hk9]
    rfl

theorem idxOf_castRange {n k : Nat} (hk : k < n) :
    idxOf (Int.ofNat k) (castRange n) = k := by
  have hlen : k < (castRange n).length := by
    simpa [castRange] using hk
  have hget : (castRange n)[k] = Int.ofNat k := by
    simp [castRange]
  have h9 := idxOf_getElem (pairwise_castRange n) k hlen
  rwa [hget] at h9

theorem mem_align (df : List Alert) {r9 : Alert}
    (h : r9 ∈ align_trajectory_id df) :
    ∃ r ∈ df, r9 = { r with trajectory_id :=
      (idxOf r.trajectory_id (sortedUnique (tidList df)) : Int) } := by
  rcases List.mem_map.mp h with ⟨r, hr, rfl⟩
  exact ⟨r, hr, rfl⟩

/-- C7: applying `align_trajectory_id` twice yields the same result as
applying it once — after a first alignment the identifiers are already
the dense range `[0, n)` and the translation map is the identity. -/
theorem align_trajectory_id_idempotent (df : List Alert) :
    align_trajectory_id (align_trajectory_id df) = align_trajectory_id df := by
  have hsu2 := sortedUnique_align df
  conv_lhs => rw [align_trajectory_id]
  rw [hsu2]
  have hpt : ∀ r9 ∈ align_trajectory_id df,
      ({ r9 with trajectory_id :=
        (idxOf r9.trajectory_id (castRange (sortedUnique (tidList df)).length) : Int) }) = r9 := by
    intro r9 hr9
    rcases mem_align df hr9 with ⟨r, hr, rfl⟩
    have hmem : r.trajectory_id ∈ sortedUnique (tidList df) :=
      mem_sortedUnique.mpr (List.mem_map.mpr ⟨r, hr, rfl⟩)
    have hlt : idxOf r.trajectory_id (sortedUnique (tidList df)) <
        (sortedUnique (tidList df)).length := idxOf_lt_length hmem
    simp only [Alert.mk.injEq, and_true, true_and]
    exact congrArg Int.ofNat (idxOf_castRange hlt)
  calc (align_trajectory_id df).map (fun r => { r with trajectory_id :=
          (idxOf r.trajectory_id (castRange (sortedUnique (tidList df)).length) : Int) })
      = (align_trajectory_id df).map id := List.map_congr_left (by simpa using hpt)
    _ = align_trajectory_id df := List.map_id _

/-- Formalisation of the ordering half of claim C3 as stated: the new
numbering produced by `align_trajectory_id` (the new identifier of an old
identifier `a` is `idxOf a (sortedUnique ids)`) preserves the relative
first-appearance order of the old identifiers in the input rows. -/
def firstAppearancePreserving (df : List Alert) : Prop :=
  ∀ a b : Int, a ∈ tidList df → b ∈ tidList df →
    idxOf a (tidList df) < idxOf b (tidList df) →
    idxOf a (sortedUnique (tidList df)) < idxOf b (sortedUnique (tidList df))

/-- Concrete input refuting the first-appearance claim: identifier 3
appears (row 0) before identifier 2 (row 1). -/
def alignC3input : List Alert :=
  [⟨0, 0, 3, false⟩, ⟨1, 0, 2, false⟩]

/-- C3, counterexample: `align_trajectory_id` numbers identifiers in
sorted numeric order, not first-appearance order.  On an input whose
identifiers are `[3, 2]`, identifier 3 first appears before identifier 2
but receives the larger new identifier (the output column is `[1, 0]`). -/
theorem align_first_appearance_counterexample :
    ¬ firstAppearancePreserving alignC3input ∧
    tidList (align_trajectory_id alignC3input) = [1, 0] := by
  constructor
  · intro h
    have h9 := h 3 2 (by decide) (by decide) (by decide)
    revert h9
    decide
  · decide

/-- C3, amended: `align_trajectory_id` rewrites the `trajectory_id`
column so that the set of identifiers in the output is exactly the dense
range `[0, number of distinct input identifiers)`, and the new numbering
preserves the relative ascending numeric order of the old identifiers
(not their first-appearance order). -/
theorem align_dense_and_sorted_order (df : List Alert) (a b : Int)
    (ha : a ∈ tidList df) (hb : b ∈ tidList df) (hab : a < b) :
    sortedUnique (tidList (align_trajectory_id df)) =
      castRange (sortedUnique (tidList df)).length ∧
    idxOf a (sortedUnique (tidList df)) < idxOf b (sortedUnique (tidList df)) :=
  ⟨sortedUnique_align df,
   idxOf_strictMono (sortedUnique_pairwise _)
     (mem_sortedUnique.mpr ha) (mem_sortedUnique.mpr hb) hab⟩

/-- Witness for the amended C3 theorem at a concrete input. -/
theorem align_dense_and_sorted_order_witness :
    sortedUnique (tidList (align_trajectory_id alignC3input)) =
      castRange (sortedUnique (tidList alignC3input)).length ∧
    idxOf 2 (sortedUnique (tidList alignC3input)) <
      idxOf 3 (sortedUnique (tidList alignC3input)) :=
  align_dense_and_sorted_order alignC3input 2 3 (by decide) (by decide) (by decide)

/-! ## The inter-night orchestrator
(src/fink_fat/associations/inter_night_associations.py) -/

theorem length_filter_not_add_length_filter (l : List Alert) (p : Alert → Bool) :
    (l.filter (fun a => !(p a))).length + (l.filter p).length = l.length := by
  induction l with
  | nil => rfl
  | cons a t ih =>
      by_cases h : p a <;> simp [List.filter_cons, h] <;> omega

/-- Number of rows of a trajectory-id group of a dataframe. -/
def groupSize (df : List Alert) (tid : Int) : Nat :=
  (df.filter (fun r => r.trajectory_id == tid)).length

/-- Modelled from the spec: the retention predicate of
`time_window_management` (module `fink_fat/associations/associations.py`,
which is not under src/).  Spec section 4.7: a trajectory is kept when the
night-age `next_nid - (most recent night id of the trajectory)` is within
`traj_time_window`, with the stricter `traj_2_points_time_window` for
trajectories of exactly two points. -/
def trajKept (traj : List Alert) (next_nid traj_time_window traj_2_points_time_window : Int)
    (r : Alert) : Bool :=
  let grp := traj.filter (fun x => x.trajectory_id == r.trajectory_id)
  let recent := grp.foldl (fun a x => max a x.nid) r.nid
  let w := if grp.length = 2 then traj_2_points_time_window else traj_time_window
  decide (next_nid - recent ≤ w)

/-- Modelled from the spec: `time_window_management`
(module `fink_fat/associations/associations.py`, which is not under
src/).  Spec sections 4.6 step 1 and 4.7: split the trajectories into the
evicted ones (`old_traj`, first component) and the kept ones
(`most_recent_traj`, second component), and keep only the old
observations whose night-age is within `obs_time_window` (evicted old
observations are simply dropped). -/
def time_window_management (trajectory_df old_observation : List Alert)
    (last_nid next_nid traj_time_window obs_time_window traj_2_points_time_window : Int) :
    (List Alert × List Alert) × List Alert :=
  let _ := last_nid
  let kept := trajKept trajectory_df next_nid traj_time_window traj_2_points_time_window
  ((trajectory_df.filter (fun r => !(kept r)), trajectory_df.filter kept),
    old_observation.filter (fun r => decide (next_nid - r.nid ≤ obs_time_window)))

/-- The old observations dropped by the window manager: the complement of
the pool kept by `time_window_management`. -/
def evicted_observations (old_observation : List Alert) (next_nid obs_time_window : Int) :
    List Alert :=
  old_observation.filter (fun r => !(decide (next_nid - r.nid ≤ obs_time_window)))

theorem twm_traj_partition (trajectory_df old_observation : List Alert)
    (last_nid next_nid ttw otw t2tw : Int) :
    (time_window_management trajectory_df old_observation last_nid next_nid ttw otw t2tw).1.1.length +
    (time_window_management trajectory_df old_observation last_nid next_nid ttw otw t2tw).1.2.length =
    trajectory_df.length :=
  length_filter_not_add_length_filter trajectory_df _

theorem twm_obs_partition (trajectory_df old_observation : List Alert)
    (last_nid next_nid ttw otw t2tw : Int) :
    (time_window_management trajectory_df old_observation last_nid next_nid ttw otw t2tw).2.length +
    (evicted_observations old_observation next_nid otw).length =
    old_observation.length := by
  have h := length_filter_not_add_length_filter old_observation
    (fun r => decide (next_nid - r.nid ≤ otw))
  simpa [time_window_management, evicted_observations, Nat.add_comm] using h

/-- Embedding of `intra_night_step`
(src/fink_fat/associations/inter_night_associations.py, lines 71-175).
The tracklet construction itself (`intra_night_association` followed by
`new_trajectory_id_assignation`, both from modules that are not under
src/) is the parameter `intraTk`; the step then removes from the night
every alert whose `candid` appears in a tracklet (only when at least one
tracklet was found, otherwise the night is returned unchanged). -/
def intra_night_step (intraTk : List Alert → Int → List Alert)
    (new_observation : List Alert) (last_trajectory_id : Int) :
    List Alert × List Alert :=
  let tracklets := intraTk new_observation last_trajectory_id
  if 0 < tracklets.length then
    (tracklets,
      new_observation.filter (fun r => !(decide (r.candid ∈ tracklets.map (·.candid)))))
  else
    (tracklets, new_observation)

/-- Embedding of `separate_trajectories`
(src/fink_fat/associations/inter_night_associations.py, lines 16-68):
rows whose trajectory group has at least `orbfit_limit` points go to the
second component (`track_to_orb`), the others to the first
(`other_track`). -/
def separate_trajectories (trajectory_df : List Alert) (orbfit_limit : Nat) :
    List Alert × List Alert :=
  (trajectory_df.filter (fun r => !(decide (orbfit_limit ≤ groupSize trajectory_df r.trajectory_id))),
   trajectory_df.filter (fun r => decide (orbfit_limit ≤ groupSize trajectory_df r.trajectory_id)))

theorem separate_trajectories_partition (df : List Alert) (limit : Nat) :
    (separate_trajectories df limit).1.length + (separate_trajectories df limit).2.length =
    df.length :=
  length_filter_not_add_length_filter df _

/-- Modelled from the spec: the four inter-night association stage
functions (`tracklets_and_trajectories_associations`,
`trajectories_with_new_observations_associations`,
`old_observations_with_tracklets_associations`,
`old_with_new_observations_associations`, all from the module
`fink_fat/associations/associations.py`, which is not under src/).  Each
stage takes its two input pools, the incoming night id and the current
maximum trajectory identifier; the first three return (grown
trajectories, unconsumed second pool, new maximum identifier), the last
returns (brand-new two-point trajectories, leftover old observations,
leftover new observations).  Spec section 4.6: each stage only regroups
its inputs, each stage's unconsumed leftovers feed the next. -/
structure StageFns where
  intraTk : List Alert → Int → List Alert
  trackTraj : List Alert → List Alert → Int → Int → List Alert × List Alert × Int
  trajNewObs : List Alert → List Alert → Int → Int → List Alert × List Alert × Int
  oldObsTrack : List Alert → List Alert → Int → Int → List Alert × List Alert × Int
  oldNew : List Alert → List Alert → Int → Int → List Alert × List Alert × List Alert

/-- Maximum of a nonempty integer list (embedding of `np.max`). -/
def listMax : List Int → Int
  | [] => 0
  | x :: xs => xs.foldl max x

/-- The keys of the report dictionary built by
`night_to_night_association`; the same keys are set on every return
path (lines 504-505, 525-529 and 699-705 of
src/fink_fat/associations/inter_night_associations.py). -/
def reportKeys : List String :=
  ["nid of the next night", "intra night report", "tracklets associations report",
   "trajectories associations report", "track and old obs associations report",
   "old observation and new observation report"]

/-- Stage 3 wrapper (lines 545-579): run the tracklets-trajectories
association only when there are kept trajectories, tracklets, and the
stage is enabled; otherwise pass both pools through unchanged. -/
def stageA (fns : StageFns) (most_recent_traj small_track : List Alert) (trackletsLen : Nat)
    (next_nid last_trajectory_id : Int) (doA : Bool) : List Alert × List Alert × Int :=
  if 0 < most_recent_traj.length ∧ 0 < trackletsLen ∧ doA then
    fns.trackTraj most_recent_traj small_track next_nid last_trajectory_id
  else (most_recent_traj, small_track, last_trajectory_id)

/-- Stage 4 wrapper (lines 581-617): trajectories against leftover new
observations. -/
def stageB (fns : StageFns) (traj_with_track remaining_new : List Alert)
    (next_nid max_traj_id : Int) (doB : Bool) : List Alert × List Alert × Int :=
  if 0 < traj_with_track.length ∧ 0 < remaining_new.length ∧ doB then
    fns.trajNewObs traj_with_track remaining_new next_nid max_traj_id
  else (traj_with_track, remaining_new, max_traj_id)

/-- Stage 5 wrapper (lines 619-656): leftover tracklets against the kept
old observations. -/
def stageC (fns : StageFns) (not_associated_tracklets old_observation : List Alert)
    (next_nid max_traj_id : Int) (doC : Bool) : List Alert × List Alert × Int :=
  if 0 < not_associated_tracklets.length ∧ 0 < old_observation.length ∧ doC then
    fns.oldObsTrack not_associated_tracklets old_observation next_nid max_traj_id
  else (not_associated_tracklets, old_observation, max_traj_id)

/-- Stage 6 wrapper (lines 658-690): leftover old against leftover new
observations; when skipped no new trajectory is produced. -/
def stageD (fns : StageFns) (remain_old_obs remaining_new : List Alert)
    (next_nid max_traj_id : Int) (doD : Bool) : List Alert × List Alert × List Alert :=
  if 0 < remain_old_obs.length ∧ 0 < remaining_new.length ∧ doD then
    fns.oldNew remain_old_obs remaining_new next_nid max_traj_id
  else ([], remain_old_obs, remaining_new)

/-- The main branch of `night_to_night_association` (lines 537-710):
split the tracklets at the orbit-fit threshold, run the four association
stages, concatenate every trajectory fragment, mark every row as not yet
sent to orbit fit and realign the identifiers. -/
def inter_night_main (fns : StageFns) (old_traj most_recent_traj old_observation
    tracklets remaining_new_observations : List Alert)
    (next_nid last_trajectory_id : Int) (orbfit_limit : Nat) (doA doB doC doD : Bool) :
    List Alert × List Alert × List String :=
  let sep := if 0 < tracklets.length then separate_trajectories tracklets orbfit_limit
    else ([], [])
  let last_tid2 := if 0 < tracklets.length then listMax (tidList tracklets) + 1
    else last_trajectory_id
  let stA := stageA fns most_recent_traj sep.1 tracklets.length next_nid last_tid2 doA
  let stB := stageB fns stA.1 remaining_new_observations next_nid stA.2.2 doB
  let stC := stageC fns stA.2.1 old_observation next_nid stB.2.2 doC
  let stD := stageD fns stC.2.1 stB.2.1 next_nid stC.2.2 doD
  (align_trajectory_id
      ((old_traj ++ (sep.2 ++ stB.1 ++ stC.1 ++ stD.1)).map
        (fun r => { r with not_updated := true })),
    stD.2.1 ++ stD.2.2, reportKeys)

/-- Embedding of `night_to_night_association`
(src/fink_fat/associations/inter_night_associations.py, lines 232-710):
compute the new identifier baseline, evict by time window, build the
night's tracklets, and either return early (no kept trajectory and no
kept old observation) or run the four association stages and the final
concatenation / marking / realignment. -/
def night_to_night_association (fns : StageFns)
    (trajectory_df old_observation new_observation : List Alert)
    (last_nid next_nid traj_time_window obs_time_window traj_2_points_time_window : Int)
    (orbfit_limit : Nat) (doA doB doC doD : Bool) :
    List Alert × List Alert × List String :=
  let last_trajectory_id :=
    if 0 < trajectory_df.length then listMax (tidList trajectory_df) + 1 else 0
  let twm := time_window_management trajectory_df old_observation last_nid next_nid
    traj_time_window obs_time_window traj_2_points_time_window
  let istep := intra_night_step fns.intraTk new_observation last_trajectory_id
  if twm.1.2.length = 0 ∧ twm.2.length = 0 then
    (twm.1.1 ++ istep.1, istep.2, reportKeys)
  else
    inter_night_main fns twm.1.1 twm.1.2 twm.2 istep.1 istep.2 next_nid
      last_trajectory_id orbfit_limit doA doB doC doD

theorem align_length (df : List Alert) :
    (align_trajectory_id df).length = df.length := by
  simp [align_trajectory_id]

theorem stageA_len (fns : StageFns) (a b : List Alert) (tlen : Nat) (n i : Int) (d : Bool)
    (hA : ∀ a9 b9 n9 i9, (fns.trackTraj a9 b9 n9 i9).1.length +
      (fns.trackTraj a9 b9 n9 i9).2.1.length = a9.length + b9.length) :
    (stageA fns a b tlen n i d).1.length + (stageA fns a b tlen n i d).2.1.length =
    a.length + b.length := by
  unfold stageA
  split
  · exact hA a b n i
  · rfl

theorem stageB_len (fns : StageFns) (a b : List Alert) (n i : Int) (d : Bool)
    (hB : ∀ a9 b9 n9 i9, (fns.trajNewObs a9 b9 n9 i9).1.length +
      (fns.trajNewObs a9 b9 n9 i9).2.1.length = a9.length + b9.length) :
    (stageB fns a b n i d).1.length + (stageB fns a b n i d).2.1.length =
    a.length + b.length := by
  unfold stageB
  split
  · exact hB a b n i
  · rfl

theorem stageC_len (fns : StageFns) (a b : List Alert) (n i : Int) (d : Bool)
    (hC : ∀ a9 b9 n9 i9, (fns.oldObsTrack a9 b9 n9 i9).1.length +
      (fns.oldObsTrack a9 b9 n9 i9).2.1.length = a9.length + b9.length) :
    (stageC fns a b n i d).1.length + (stageC fns a b n i d).2.1.length =
    a.length + b.length := by
  unfold stageC
  split
  · exact hC a b n i
  · rfl

theorem stageD_len (fns : StageFns) (a b : List Alert) (n i : Int) (d : Bool)
    (hD : ∀ a9 b9 n9 i9, (fns.oldNew a9 b9 n9 i9).1.length +
      (fns.oldNew a9 b9 n9 i9).2.1.length + (fns.oldNew a9 b9 n9 i9).2.2.length =
      a9.length + b9.length) :
    (stageD fns a b n i d).1.length + (stageD fns a b n i d).2.1.length +
      (stageD fns a b n i d).2.2.length = a.length + b.length := by
  unfold stageD
  split
  · exact hD a b n i
  · simp

theorem inter_night_main_len (fns : StageFns)
    (old_traj most_recent_traj old_observation tracklets remaining_new : List Alert)
    (next_nid last_trajectory_id : Int) (orbfit_limit : Nat) (dA dB dC dD : Bool)
    (hA : ∀ a9 b9 n9 i9, (fns.trackTraj a9 b9 n9 i9).1.length +
      (fns.trackTraj a9 b9 n9 i9).2.1.length = a9.length + b9.length)
    (hB : ∀ a9 b9 n9 i9, (fns.trajNewObs a9 b9 n9 i9).1.length +
      (fns.trajNewObs a9 b9 n9 i9).2.1.length = a9.length + b9.length)
    (hC : ∀ a9 b9 n9 i9, (fns.oldObsTrack a9 b9 n9 i9).1.length +
      (fns.oldObsTrack a9 b9 n9 i9).2.1.length = a9.length + b9.length)
    (hD : ∀ a9 b9 n9 i9, (fns.oldNew a9 b9 n9 i9).1.length +
      (fns.oldNew a9 b9 n9 i9).2.1.length + (fns.oldNew a9 b9 n9 i9).2.2.length =
      a9.length + b9.length) :
    (inter_night_main fns old_traj most_recent_traj old_observation tracklets
      remaining_new next_nid last_trajectory_id orbfit_limit dA dB dC dD).1.length +
    (inter_night_main fns old_traj most_recent_traj old_observation tracklets
      remaining_new next_nid last_trajectory_id orbfit_limit dA dB dC dD).2.1.length =
    old_traj.length + most_recent_traj.length + old_observation.length +
      tracklets.length + remaining_new.length := by
  simp only [inter_night_main]
  generalize hsep : (if 0 < tracklets.length then
    separate_trajectories tracklets orbfit_limit
    else (([] : List Alert), ([] : List Alert))) = sep
  generalize (if 0 < tracklets.length then listMax (tidList tracklets) + 1
    else last_trajectory_id) = i2
  generalize hstA : stageA fns most_recent_traj sep.1 tracklets.length next_nid i2 dA = stA
  generalize hstB : stageB fns stA.1 remaining_new next_nid stA.2.2 dB = stB
  generalize hstC : stageC fns stA.2.1 old_observation next_nid stB.2.2 dC = stC
  generalize hstD : stageD fns stC.2.1 stB.2.1 next_nid stC.2.2 dD = stD
  have h1 : sep.1.length + sep.2.length = tracklets.length := by
    rw [← hsep]
    split
    · exact separate_trajectories_partition tracklets orbfit_limit
    · simp
      omega
  have h2 := stageA_len fns most_recent_traj sep.1 tracklets.length next_nid i2 dA hA
  rw [hstA] at h2
  have h3 := stageB_len fns stA.1 remaining_new next_nid stA.2.2 dB hB
  rw [hstB] at h3
  have h4 := stageC_len fns stA.2.1 old_observation next_nid stB.2.2 dC hC
  rw [hstC] at h4
  have h5 := stageD_len fns stC.2.1 stB.2.1 next_nid stC.2.2 dD hD
  rw [hstD] at h5
  simp only [align_length, List.length_map, List.length_append]
  omega

/-- C1: conservation of observations across one orchestration cycle.
The orchestrator of src/fink_fat/associations/inter_night_associations.py
(lines 489-710) is embedded over the spec-modelled window manager and the
spec-modelled association stages; assuming each missing stage regroups
its inputs without creating or destroying rows (spec section 4.6), the
observation rows of the returned trajectory dataframe plus the returned
old-observation pool plus the old observations evicted by the window
manager at the start of the cycle account exactly for every input
observation row. -/
theorem night_to_night_conservation (fns : StageFns)
    (trajectory_df old_observation new_observation : List Alert)
    (last_nid next_nid ttw otw t2tw : Int) (orbfit_limit : Nat) (dA dB dC dD : Bool)
    (hIntra : ∀ obs lid, (intra_night_step fns.intraTk obs lid).1.length +
      (intra_night_step fns.intraTk obs lid).2.length = obs.length)
    (hA : ∀ a9 b9 n9 i9, (fns.trackTraj a9 b9 n9 i9).1.length +
      (fns.trackTraj a9 b9 n9 i9).2.1.length = a9.length + b9.length)
    (hB : ∀ a9 b9 n9 i9, (fns.trajNewObs a9 b9 n9 i9).1.length +
      (fns.trajNewObs a9 b9 n9 i9).2.1.length = a9.length + b9.length)
    (hC : ∀ a9 b9 n9 i9, (fns.oldObsTrack a9 b9 n9 i9).1.length +
      (fns.oldObsTrack a9 b9 n9 i9).2.1.length = a9.length + b9.length)
    (hD : ∀ a9 b9 n9 i9, (fns.oldNew a9 b9 n9 i9).1.length +
      (fns.oldNew a9 b9 n9 i9).2.1.length + (fns.oldNew a9 b9 n9 i9).2.2.length =
      a9.length + b9.length) :
    (night_to_night_association fns trajectory_df old_observation new_observation
      last_nid next_nid ttw otw t2tw orbfit_limit dA dB dC dD).1.length +
    (night_to_night_association fns trajectory_df old_observation new_observation
      last_nid next_nid ttw otw t2tw orbfit_limit dA dB dC dD).2.1.length +
    (evicted_observations old_observation next_nid otw).length =
    trajectory_df.length + old_observation.length + new_observation.length := by
  have htraj := twm_traj_partition trajectory_df old_observation last_nid next_nid ttw otw t2tw
  have hobs := twm_obs_partition trajectory_df old_observation last_nid next_nid ttw otw t2tw
  have hist := hIntra new_observation
    (if 0 < trajectory_df.length then listMax (tidList trajectory_df) + 1 else 0)
  simp only [night_to_night_association]
  split
  · rename_i hcond
    obtain ⟨hc1, hc2⟩ := hcond
    simp only [List.length_append]
    omega
  · have hmain := inter_night_main_len fns
      (time_window_management trajectory_df old_observation last_nid next_nid ttw otw t2tw).1.1
      (time_window_management trajectory_df old_observation last_nid next_nid ttw otw t2tw).1.2
      (time_window_management trajectory_df old_observation last_nid next_nid ttw otw t2tw).2
      (intra_night_step fns.intraTk new_observation
        (if 0 < trajectory_df.length then listMax (tidList trajectory_df) + 1 else 0)).1
      (intra_night_step fns.intraTk new_observation
        (if 0 < trajectory_df.length then listMax (tidList trajectory_df) + 1 else 0)).2
      next_nid
      (if 0 < trajectory_df.length then listMax (tidList trajectory_df) + 1 else 0)
      orbfit_limit dA dB dC dD hA hB hC hD
    omega

/-- Trivially conserving stage functions, used to instantiate the
spec-modelled stage bundle on concrete inputs: no tracklet is ever
found, the first three stages associate everything pairwise into the
first pool, the last stage associates nothing. -/
def trivialStages : StageFns where
  intraTk := fun _ _ => []
  trackTraj := fun a b _ i => (a ++ b, [], i)
  trajNewObs := fun a b _ i => (a ++ b, [], i)
  oldObsTrack := fun a b _ i => (a ++ b, [], i)
  oldNew := fun a b _ _ => ([], a, b)

/-- Concrete trajectory pool for witnesses: one two-point trajectory. -/
def w1traj : List Alert := [⟨1, 1, 0, false⟩, ⟨2, 1, 0, false⟩]

/-- Concrete old-observation pool for witnesses: one kept and one
evicted observation. -/
def w1old : List Alert := [⟨3, 1, 0, false⟩, ⟨4, -10, 0, false⟩]

/-- Concrete new night for witnesses. -/
def w1new : List Alert := [⟨5, 3, 0, false⟩]

/-- Witness for the conservation theorem: a concrete cycle on one kept
trajectory, one kept and one evicted old observation, and one new
observation, with trivially conserving stage functions. -/
theorem night_to_night_conservation_witness :
    (night_to_night_association trivialStages w1traj w1old w1new
      1 3 5 5 5 3 true true true true).1.length +
    (night_to_night_association trivialStages w1traj w1old w1new
      1 3 5 5 5 3 true true true true).2.1.length +
    (evicted_observations w1old 3 5).length =
    w1traj.length + w1old.length + w1new.length :=
  night_to_night_conservation trivialStages w1traj w1old w1new 1 3 5 5 5 3
    true true true true
    (by intro obs lid; simp [intra_night_step, trivialStages])
    (by intro a b n i; simp [trivialStages])
    (by intro a b n i; simp [trivialStages])
    (by intro a b n i; simp [trivialStages])
    (by intro a b n i; simp [trivialStages])

/-- C9: after `intra_night_step`, the returned tracklets and the
returned not-associated observations partition the night's observations
by candidate identifier: every `candid` of the input appears among the
tracklet candids or among the not-associated candids, and no `candid`
appears on both sides.  This holds for every tracklet builder `intraTk`
(the builder itself lives in a module that is not under src/). -/
theorem intra_night_step_partition (intraTk : List Alert → Int → List Alert)
    (new_observation : List Alert) (lid : Int) (r : Alert)
    (hr : r ∈ new_observation) (c : Int) :
    (r.candid ∈ (intra_night_step intraTk new_observation lid).1.map (·.candid) ∨
     r.candid ∈ (intra_night_step intraTk new_observation lid).2.map (·.candid)) ∧
    ¬ (c ∈ (intra_night_step intraTk new_observation lid).1.map (·.candid) ∧
       c ∈ (intra_night_step intraTk new_observation lid).2.map (·.candid)) := by
  simp only [intra_night_step]
  split
  · constructor
    · by_cases hc : r.candid ∈ (intraTk new_observation lid).map (·.candid)
      · exact Or.inl hc
      · refine Or.inr (List.mem_map.mpr ⟨r, ?_, rfl⟩)
        rw [List.mem_filter]
        exact ⟨hr, by simpa using hc⟩
    · rintro ⟨h1, h2⟩
      rcases List.mem_map.mp h2 with ⟨x, hx, rfl⟩
      rw [List.mem_filter] at hx
      have hx2 := hx.2
      simp only [Bool.not_eq_eq_eq_not, Bool.not_true, decide_eq_false_iff_not] at hx2
      exact hx2 h1
  · rename_i hlen
    have hnil : intraTk new_observation lid = [] :=
      List.eq_nil_of_length_eq_zero (by omega)
    constructor
    · exact Or.inr (List.mem_map.mpr ⟨r, hr, rfl⟩)
    · rintro ⟨h1, _⟩
      rw [hnil] at h1
      simp at h1

/-- Witness for the intra-night partition theorem at a concrete night. -/
theorem intra_night_step_partition_witness :
    ((7 : Int) ∈ (intra_night_step (fun _ _ => []) [⟨7, 3, 0, false⟩] 0).1.map (·.candid) ∨
     (7 : Int) ∈ (intra_night_step (fun _ _ => []) [⟨7, 3, 0, false⟩] 0).2.map (·.candid)) ∧
    ¬ ((7 : Int) ∈ (intra_night_step (fun _ _ => []) [⟨7, 3, 0, false⟩] 0).1.map (·.candid) ∧
       (7 : Int) ∈ (intra_night_step (fun _ _ => []) [⟨7, 3, 0, false⟩] 0).2.map (·.candid)) :=
  intra_night_step_partition (fun _ _ => []) [⟨7, 3, 0, false⟩] 0 ⟨7, 3, 0, false⟩
    (by decide) 7

/-! ## Finalisation of the orchestrator (claim C4) -/

theorem align_dense_self (df : List Alert) :
    sortedUnique (tidList (align_trajectory_id df)) =
      castRange (sortedUnique (tidList (align_trajectory_id df))).length := by
  have h := sortedUnique_align df
  rw [h]
  have hl : (castRange (sortedUnique (tidList df)).length).length =
      (sortedUnique (tidList df)).length := by
    simp [castRange]
  rw [hl]

theorem align_marked (df : List Alert)
    (h : ∀ r ∈ df, r.not_updated = true) :
    ∀ r ∈ align_trajectory_id df, r.not_updated = true := by
  intro r hr
  rcases mem_align df hr with ⟨r0, hr0, rfl⟩
  exact h r0 hr0

theorem marked_map (df : List Alert) (r : Alert)
    (h : r ∈ df.map (fun x => { x with not_updated := true })) :
    r.not_updated = true := by
  rcases List.mem_map.mp h with ⟨x, _, rfl⟩
  rfl

theorem inter_night_main_final (fns : StageFns)
    (old_traj most_recent_traj old_observation tracklets remaining_new : List Alert)
    (next_nid last_trajectory_id : Int) (orbfit_limit : Nat) (dA dB dC dD : Bool) :
    sortedUnique (tidList (inter_night_main fns old_traj most_recent_traj
        old_observation tracklets remaining_new next_nid last_trajectory_id
        orbfit_limit dA dB dC dD).1) =
      castRange (sortedUnique (tidList (inter_night_main fns old_traj most_recent_traj
        old_observation tracklets remaining_new next_nid last_trajectory_id
        orbfit_limit dA dB dC dD).1)).length ∧
    (∀ r ∈ (inter_night_main fns old_traj most_recent_traj old_observation tracklets
        remaining_new next_nid last_trajectory_id orbfit_limit dA dB dC dD).1,
      r.not_updated = true) ∧
    (inter_night_main fns old_traj most_recent_traj old_observation tracklets
        remaining_new next_nid last_trajectory_id orbfit_limit dA dB dC dD).2.2 =
      reportKeys := by
  simp only [inter_night_main]
  refine ⟨align_dense_self _, ?_, trivial⟩
  exact align_marked _ (fun r9 h9 => marked_map _ r9 h9)

/-- Concrete input for the C4 counterexample: a single one-point
trajectory whose night is far outside the time window, an empty
old-observation pool and an empty new night, so that the early-return
branch of `night_to_night_association` (lines 523-535) is taken. -/
def c4traj : List Alert := [⟨1, 0, 7, false⟩]

/-- C4, counterexample: on the early-return branch (kept trajectory set
and kept old-observation pool both empty) `night_to_night_association`
returns the evicted trajectories and the new tracklets as concatenated,
without reassigning identifiers to a dense range and without marking the
rows as not yet sent to orbit fit: the returned trajectory keeps
identifier 7 (not the dense range `[0, 1)`) and keeps
`not_updated = false`. -/
theorem night_to_night_c4_counterexample :
    ¬ (sortedUnique (tidList (night_to_night_association trivialStages c4traj [] []
          0 100 5 5 5 3 true true true true).1) =
        castRange (sortedUnique (tidList (night_to_night_association trivialStages
          c4traj [] [] 0 100 5 5 5 3 true true true true).1)).length ∧
       ∀ r ∈ (night_to_night_association trivialStages c4traj [] []
          0 100 5 5 5 3 true true true true).1, r.not_updated = true) := by
  decide

/-- C4, amended: on every call that does not take the early-return
branch — that is, whenever the window manager keeps at least one
trajectory or at least one old observation — `night_to_night_association`
ends by concatenating all trajectory fragments, reassigning the
trajectory identifiers to the dense contiguous range
`[0, number of distinct identifiers)`, marking every returned trajectory
row as not yet sent to orbit fit (`not_updated = true`), and returning
the trajectory set, the old-observation pool and the report. -/
theorem night_to_night_main_branch_finalization (fns : StageFns)
    (trajectory_df old_observation new_observation : List Alert)
    (last_nid next_nid ttw otw t2tw : Int) (orbfit_limit : Nat) (dA dB dC dD : Bool)
    (h : ¬ ((time_window_management trajectory_df old_observation last_nid next_nid
        ttw otw t2tw).1.2.length = 0 ∧
      (time_window_management trajectory_df old_observation last_nid next_nid
        ttw otw t2tw).2.length = 0)) :
    sortedUnique (tidList (night_to_night_association fns trajectory_df old_observation
        new_observation last_nid next_nid ttw otw t2tw orbfit_limit dA dB dC dD).1) =
      castRange (sortedUnique (tidList (night_to_night_association fns trajectory_df
        old_observation new_observation last_nid next_nid ttw otw t2tw orbfit_limit
        dA dB dC dD).1)).length ∧
    (∀ r ∈ (night_to_night_association fns trajectory_df old_observation
        new_observation last_nid next_nid ttw otw t2tw orbfit_limit dA dB dC dD).1,
      r.not_updated = true) ∧
    (night_to_night_association fns trajectory_df old_observation new_observation
        last_nid next_nid ttw otw t2tw orbfit_limit dA dB dC dD).2.2 = reportKeys := by
  simp only [night_to_night_association]
  rw [if_neg h]
  exact inter_night_main_final fns _ _ _ _ _ next_nid _ orbfit_limit dA dB dC dD

/-- Witness for the amended C4 theorem: a concrete cycle that keeps an
old observation and therefore takes the main branch. -/
theorem night_to_night_main_branch_finalization_witness :
    sortedUnique (tidList (night_to_night_association trivialStages w1traj w1old w1new
        1 3 5 5 5 3 true true true true).1) =
      castRange (sortedUnique (tidList (night_to_night_association trivialStages w1traj
        w1old w1new 1 3 5 5 5 3 true true true true).1)).length ∧
    (∀ r ∈ (night_to_night_association trivialStages w1traj w1old w1new
        1 3 5 5 5 3 true true true true).1, r.not_updated = true) ∧
    (night_to_night_association trivialStages w1traj w1old w1new
        1 3 5 5 5 3 true true true true).2.2 = reportKeys :=
  night_to_night_main_branch_finalization trivialStages w1traj w1old w1new
    1 3 5 5 5 3 true true true true (by decide)

/-! ## The first-method night-to-night module
(src/alert_association/first_method/night_to_night_association.py) -/

namespace FirstMethod

/-- An observation row of the first-method module: equatorial
coordinates, Julian date and candidate identifier. -/
structure Obs where
  ra : Rat
  dec : Rat
  jd : Rat
  candid : Int
deriving DecidableEq, Repr

/-- Embedding of `night_to_night_separation_association` (lines 19-49).
The astropy `search_around_sky` call is an external collaborator; its
documented contract — return exactly the index pairs whose on-sky
separation is within `separation_criterion` — is the parameter semantics:
`sep` is the great-circle separation function and the result lists, index
aligned, the left row, the right row and the separation of every pair
within the criterion. -/
def night_to_night_separation_association (sep : Obs → Obs → Rat)
    (separation_criterion : Rat) (old_observation new_observation : List Obs) :
    List (Obs × Obs × Rat) :=
  new_observation.flatMap (fun b =>
    old_observation.filterMap (fun a =>
      if sep a b ≤ separation_criterion then some (a, b, sep a b) else none))

/-- C5: soundness and completeness of the geometric matcher: every
returned pair has separation at most the criterion (and the returned
separation is the pair's separation), and every cross pair within the
criterion is returned. -/
theorem separation_association_sound_complete (sep : Obs → Obs → Rat)
    (separation_criterion : Rat) (old_observation new_observation : List Obs)
    (t : Obs × Obs × Rat)
    (ht : t ∈ night_to_night_separation_association sep separation_criterion
      old_observation new_observation)
    (a : Obs) (ha : a ∈ old_observation) (b : Obs) (hb : b ∈ new_observation)
    (hab : sep a b ≤ separation_criterion) :
    (sep t.1 t.2.1 ≤ separation_criterion ∧ t.2.2 = sep t.1 t.2.1) ∧
    (a, b, sep a b) ∈ night_to_night_separation_association sep separation_criterion
      old_observation new_observation := by
  constructor
  · simp only [night_to_night_separation_association, List.mem_flatMap,
      List.mem_filterMap] at ht
    obtain ⟨b9, _, a9, _, heq⟩ := ht
    by_cases h : sep a9 b9 ≤ separation_criterion
    · rw [if_pos h] at heq
      cases heq
      exact ⟨h, rfl⟩
    · rw [if_neg h] at heq
      cases heq
  · simp only [night_to_night_separation_association, List.mem_flatMap,
      List.mem_filterMap]
    exact ⟨b, hb, a, ha, by rw [if_pos hab]⟩

/-- Witness for the matcher theorem: one old and one new observation at
separation 1 with criterion 1. -/
theorem separation_association_sound_complete_witness :
    ((fun a b => a.ra - b.ra : Obs → Obs → Rat) ⟨2, 0, 0, 1⟩ ⟨1, 0, 1, 2⟩ ≤ 1 ∧
      ((⟨2, 0, 0, 1⟩, ⟨1, 0, 1, 2⟩, ((2 : Rat) - 1)) : Obs × Obs × Rat).2.2 =
        (fun a b => a.ra - b.ra : Obs → Obs → Rat) ⟨2, 0, 0, 1⟩ ⟨1, 0, 1, 2⟩) ∧
    ((⟨2, 0, 0, 1⟩, ⟨1, 0, 1, 2⟩,
        (fun a b => a.ra - b.ra : Obs → Obs → Rat) ⟨2, 0, 0, 1⟩ ⟨1, 0, 1, 2⟩) :
      Obs × Obs × Rat) ∈
      night_to_night_separation_association (fun a b => a.ra - b.ra) 1
        [⟨2, 0, 0, 1⟩] [⟨1, 0, 1, 2⟩] :=
  separation_association_sound_complete (fun a b => a.ra - b.ra) 1
    [⟨2, 0, 0, 1⟩] [⟨1, 0, 1, 2⟩]
    (⟨2, 0, 0, 1⟩, ⟨1, 0, 1, 2⟩, (2 : Rat) - 1)
    (by
      simp [night_to_night_separation_association,
        show ((2 : Rat) - 1 ≤ 1) from by norm_num]
      norm_num)
    ⟨2, 0, 0, 1⟩ (by simp) ⟨1, 0, 1, 2⟩ (by simp) (by norm_num)

/-- A trajectory observation row of the first-method module: as `Obs`
plus a scalar trajectory identifier (the shape used by
`cone_search_association`). -/
structure ObsT where
  ra : Rat
  dec : Rat
  jd : Rat
  candid : Int
  trajectory_id : Int
deriving DecidableEq, Repr

/-- Embedding of `angle_df` (lines 61-79): given the trajectory's two
last points and the candidate point, compute the three-point angle at
the middle vertex — the arccos geometry of `angle_three_point` is the
external parameter `angle3` — and divide it by the time gap between the
second and the third point exactly when that gap exceeds one day. -/
def angle_df (angle3 : (Rat × Rat) → (Rat × Rat) → (Rat × Rat) → Rat)
    (ra1 dec1 ra2 dec2 jd2 ra3 dec3 jd3 : Rat) : Rat :=
  let diff_jd := jd3 - jd2
  if 1 < diff_jd then angle3 (ra1, dec1) (ra2, dec2) (ra3, dec3) / diff_jd
  else angle3 (ra1, dec1) (ra2, dec2) (ra3, dec3)

/-- The two last observations of a trajectory inside the
`two_last_observations` frame: the first two rows of its group, in row
order (the `groupby ... agg list` of lines 95-100). -/
def twoLastOf (two_last : List ObsT) (tid : Int) : Option (ObsT × ObsT) :=
  match two_last.filter (fun r => r.trajectory_id == tid) with
  | r1 :: r2 :: _ => some (r1, r2)
  | _ => none

/-- Embedding of the filter of `cone_search_association` (lines 82-114):
the kept candidate positions.  Candidate `i` pairs `traj_assoc[i]` with
`new_obs_assoc[i]`; it survives when its trajectory has two recorded last
observations (the inner merge on `trajectory_id`) and the `angle_df`
value is at most the angle criterion. -/
def cone_search_kept (angle3 : (Rat × Rat) → (Rat × Rat) → (Rat × Rat) → Rat)
    (two_last traj_assoc new_obs_assoc : List ObsT) (angle_criterion : Rat) :
    List Nat :=
  (List.range traj_assoc.length).filter (fun i =>
    match traj_assoc[i]?, new_obs_assoc[i]? with
    | some tA, some nO =>
        match twoLastOf two_last tA.trajectory_id with
        | some p =>
            decide (angle_df angle3 p.1.ra p.1.dec p.2.ra p.2.dec p.2.jd
              nO.ra nO.dec nO.jd ≤ angle_criterion)
        | none => false
    | _, _ => false)

/-- Embedding of the value returned by `cone_search_association`: the
aligned (trajectory row, new observation row) pairs at the kept
positions. -/
def cone_search_association (angle3 : (Rat × Rat) → (Rat × Rat) → (Rat × Rat) → Rat)
    (two_last traj_assoc new_obs_assoc : List ObsT) (angle_criterion : Rat) :
    List (ObsT × ObsT) :=
  (cone_search_kept angle3 two_last traj_assoc new_obs_assoc angle_criterion).filterMap
    (fun i =>
      match traj_assoc[i]?, new_obs_assoc[i]? with
      | some tA, some nO => some (tA, nO)
      | _, _ => none)

/-- C6: the cone-search filter keeps candidate `i` exactly when the
three-point angle at the vertex formed by the trajectory's two last
points and the candidate point — divided by the time gap between the
second and the third point exactly when that gap exceeds one day, which
is the definition of `angle_df` — is at most the angle criterion; every
candidate whose normalized angle exceeds the criterion is rejected. -/
theorem cone_search_angle_filter
    (angle3 : (Rat × Rat) → (Rat × Rat) → (Rat × Rat) → Rat)
    (two_last traj_assoc new_obs_assoc : List ObsT) (angle_criterion : Rat)
    (i : Nat) (tA nO : ObsT) (p : ObsT × ObsT)
    (hi : traj_assoc[i]? = some tA) (hn : new_obs_assoc[i]? = some nO)
    (hp : twoLastOf two_last tA.trajectory_id = some p) :
    i ∈ cone_search_kept angle3 two_last traj_assoc new_obs_assoc angle_criterion ↔
      angle_df angle3 p.1.ra p.1.dec p.2.ra p.2.dec p.2.jd nO.ra nO.dec nO.jd ≤
        angle_criterion := by
  have hlen : i < traj_assoc.length := (List.getElem?_eq_some.mp hi).1
  simp [cone_search_kept, List.mem_filter, List.mem_range, hi, hn, hp, hlen]

/-- Witness for the cone-search theorem: a three-point configuration
with a two-day gap, so the angle is divided by the gap. -/
theorem cone_search_angle_filter_witness :
    (0 ∈ cone_search_kept (fun _ _ _ => 4)
        [⟨0, 0, 0, 1, 9⟩, ⟨1, 1, 1, 2, 9⟩] [⟨1, 1, 1, 2, 9⟩] [⟨2, 2, 3, 3, 9⟩] 3 ↔
      angle_df (fun _ _ _ => 4)
        (⟨0, 0, 0, 1, 9⟩ : ObsT).ra (⟨0, 0, 0, 1, 9⟩ : ObsT).dec
        (⟨1, 1, 1, 2, 9⟩ : ObsT).ra (⟨1, 1, 1, 2, 9⟩ : ObsT).dec
        (⟨1, 1, 1, 2, 9⟩ : ObsT).jd
        (⟨2, 2, 3, 3, 9⟩ : ObsT).ra (⟨2, 2, 3, 3, 9⟩ : ObsT).dec
        (⟨2, 2, 3, 3, 9⟩ : ObsT).jd ≤ 3) :=
  cone_search_angle_filter (fun _ _ _ => 4)
    [⟨0, 0, 0, 1, 9⟩, ⟨1, 1, 1, 2, 9⟩] [⟨1, 1, 1, 2, 9⟩] [⟨2, 2, 3, 3, 9⟩] 3
    0 ⟨1, 1, 1, 2, 9⟩ ⟨2, 2, 3, 3, 9⟩ (⟨0, 0, 0, 1, 9⟩, ⟨1, 1, 1, 2, 9⟩)
    rfl rfl (by simp [twoLastOf])

/-- A row of `trajectory_df` / `traj_next_night` in the first-method
module: the trajectory identifier column holds a list of identifiers
(multi-candidate merge state). -/
structure TrackRow where
  candid : Int
  trajectory_id : List Int
deriving DecidableEq, Repr

/-- A row of the associated tracklet extremities (`traj_right`): after
`cone_search_association` each row carries the matched trajectory's
identifier in `trajectory_id` and the tracklet's own identifier in
`tmp_traj`. -/
structure AssocRow where
  candid : Int
  trajectory_id : Int
  tmp_traj : Int
deriving DecidableEq, Repr

/-- Positions of the rows of `traj_left` carrying identifier `k`, in row
order (the `index` lists of the `multiple_assoc` groupby aggregation,
lines 150-153; pandas sorts the group keys but keeps row order inside
each group). -/
def idxList (ids : List Int) (k : Int) : List Nat :=
  (List.range ids.length).filter (fun p => decide (ids[p]? = some k))

/-- The `traj_right` rows at the given positions. -/
def rowsAt (traj_right : List AssocRow) (ps : List Nat) : List AssocRow :=
  ps.filterMap (fun p => traj_right[p]?)

/-- The associations not involved in a multiple association
(`single_obs`, line 156): one group member only. -/
def single_obs (ids : List Int) (traj_right : List AssocRow) : List AssocRow :=
  (sortedUnique ids).flatMap (fun k =>
    if (idxList ids k).length = 1 then rowsAt traj_right (idxList ids k) else [])

/-- Embedding of line 162, `multiple_obs[multiple_obs.duplicated(["trajectory_id"])]`:
pandas `duplicated` marks every occurrence except the first, so the
variable named `first_occur` holds, for each multiply-matched trajectory,
all the group rows after the first one. -/
def first_occur (ids : List Int) (traj_right : List AssocRow) : List AssocRow :=
  ((sortedUnique ids).filter (fun k => decide (1 < (idxList ids k).length))).flatMap
    (fun k => rowsAt traj_right (idxList ids k).tail)

/-- Embedding of line 165, `multiple_obs[~multiple_obs.duplicated(["trajectory_id"])]`:
the variable named `other_occur` holds, for each multiply-matched
trajectory, the first group row. -/
def other_occur (ids : List Int) (traj_right : List AssocRow) : List AssocRow :=
  ((sortedUnique ids).filter (fun k => decide (1 < (idxList ids k).length))).flatMap
    (fun k => rowsAt traj_right ((idxList ids k).take 1))

/-- Embedding of `assign_new_trajectory_id_to_new_tracklets`
(lines 133-143): for each association row, every `traj_next_night` row
whose identifier list contains the row's `tmp_traj` has its identifier
list replaced by the singleton of the row's `trajectory_id`. -/
def assign_new_trajectory_id_to_new_tracklets (rows : List AssocRow)
    (traj_next_night : List TrackRow) : List TrackRow :=
  rows.foldl (fun tnn r =>
    tnn.map (fun row =>
      if r.tmp_traj ∈ row.trajectory_id then { row with trajectory_id := [r.trajectory_id] }
      else row)) traj_next_night

/-- Embedding of the loop of lines 169-182: for each `other_occur` row,
append its `tmp_traj` to the identifier list of every `trajectory_df` row
whose list contains the row's `trajectory_id` (sequentially, so later
iterations see the updated lists). -/
def append_to_trajectory_lists (rows : List AssocRow)
    (trajectory_df : List TrackRow) : List TrackRow :=
  rows.foldl (fun df r =>
    df.map (fun row =>
      if r.trajectory_id ∈ row.trajectory_id then
        { row with trajectory_id := row.trajectory_id ++ [r.tmp_traj] }
      else row)) trajectory_df

/-- Embedding of `trajectory_id_management` (lines 145-192): split the
associations into single and multiple matches, process the row selected
by `~duplicated` (variable `other_occur`) through the id-list append
loop, the rows selected by `duplicated` (variable `first_occur`) and the
single matches through the tracklet-rename pass, and concatenate the new
observation rows onto the trajectory dataframe (`first_occur` keeping the
trajectory's identifier, `other_occur` renamed to its own `tmp_traj`). -/
def trajectory_id_management (traj_left : List Int) (traj_right : List AssocRow)
    (traj_next_night trajectory_df : List TrackRow) :
    List TrackRow × List TrackRow :=
  let single := single_obs traj_left traj_right
  let firstO := first_occur traj_left traj_right
  let otherO := other_occur traj_left traj_right
  let df2 := append_to_trajectory_lists otherO trajectory_df
  let tnn1 := assign_new_trajectory_id_to_new_tracklets firstO traj_next_night
  let tnn2 := assign_new_trajectory_id_to_new_tracklets single tnn1
  (df2 ++ firstO.map (fun r => ⟨r.candid, [r.trajectory_id]⟩)
      ++ otherO.map (fun r => ⟨r.candid, [r.tmp_traj]⟩)
      ++ single.map (fun r => ⟨r.candid, [r.trajectory_id]⟩),
   tnn2)

/-- C2, evaluation at the failing input: two tracklet extremities (rows
0 and 1, tracklet identifiers 10 and 11) are both associated with
trajectory 5.  The code renames the tracklet of the SECOND occurrence
(identifier 11) to trajectory 5 and appends the FIRST occurrence's
identifier (10) to the id-list of every row of trajectory 5 — the
opposite of the first-extends / subsequent-append policy stated by the
claim and by the code's own comments (`duplicated` marks every
occurrence except the first, inverting the intended selection). -/
theorem trajectory_id_management_swapped_roles :
    (trajectory_id_management [5, 5]
        [⟨101, 5, 10⟩, ⟨111, 5, 11⟩]
        [⟨101, [10]⟩, ⟨102, [10]⟩, ⟨111, [11]⟩, ⟨112, [11]⟩]
        [⟨90, [5]⟩, ⟨91, [5]⟩]).2 =
      [⟨101, [10]⟩, ⟨102, [10]⟩, ⟨111, [5]⟩, ⟨112, [5]⟩] ∧
    (trajectory_id_management [5, 5]
        [⟨101, 5, 10⟩, ⟨111, 5, 11⟩]
        [⟨101, [10]⟩, ⟨102, [10]⟩, ⟨111, [11]⟩, ⟨112, [11]⟩]
        [⟨90, [5]⟩, ⟨91, [5]⟩]).1 =
      [⟨90, [5, 10]⟩, ⟨91, [5, 10]⟩, ⟨111, [5]⟩, ⟨101, [10]⟩] := by
  decide

end FirstMethod

/-! ## Orbit-fit result recovery
(src/alert_association/orbit_fitting/orbfit_management.py, `read_oel`) -/

namespace OrbFit

/-- An entry of the list returned by `read_oel`: either a numeric
sentinel or a token read from the result file. -/
inductive OelEntry where
  | num : Int → OelEntry
  | str : String → OelEntry
deriving DecidableEq, Repr

/-- Python `" ".join(line.strip().split()).split(" ")`: the whitespace
tokens of the line, except that a blank line yields the singleton list
of the empty string. -/
def tokenLine (s : String) : List String :=
  let w := (s.splitOn " ").filter (fun t => !(t.isEmpty))
  if w.isEmpty then [String.mk []] else w

/-- Embedding of `read_oel`
(src/alert_association/orbit_fitting/orbfit_management.py,
lines 323-334).  The file system is the input: `none` models a missing
`.oel` file (`FileNotFoundError`, the only caught exception), `some
lines` the file content.  Line 8 (index 7) holds the orbital elements;
the RMS line (index 12) is read only when the file has more than 12
lines, otherwise the eight-element `-1` default is used; `orb_params[1:]
+ rms[2:]` is returned.  Reading index 7 of a shorter file raises an
uncaught `IndexError`, modelled by the error case. -/
def read_oel (file : Option (List String)) : Except String (List OelEntry) :=
  match file with
  | none => Except.ok (List.replicate 12 (OelEntry.num (-1)))
  | some lines =>
      if 7 < lines.length then
        let orb_params := tokenLine (lines.getD 7 (String.mk []))
        if 12 < lines.length then
          let rms := tokenLine (lines.getD 12 (String.mk []))
          Except.ok ((orb_params.drop 1).map OelEntry.str ++ (rms.drop 2).map OelEntry.str)
        else
          Except.ok ((orb_params.drop 1).map OelEntry.str ++
            List.replicate 6 (OelEntry.num (-1)))
      else Except.error "IndexError"

/-- C8, counterexample: a present but truncated result file (a single
line) makes `read_oel` raise an uncaught `IndexError` when reading line
index 7 — the exception propagates to the caller instead of being
recovered as a sentinel. -/
theorem read_oel_truncated_counterexample :
    read_oel (some ["truncated"]) = Except.error "IndexError" := rfl

/-- C8, amended: when the result file is absent, `read_oel` returns the
all-`-1` sentinel and raises nothing; when the file is present with at
least 8 lines but truncated before the RMS section (at most 12 lines),
the orbital-element tokens are returned as read and only the six RMS
fields are the `-1` sentinel; when the file has fewer than 8 lines, an
`IndexError` propagates to the caller. -/
theorem read_oel_recovery (lines : List String)
    (h8 : 7 < lines.length) (h12 : ¬ 12 < lines.length)
    (lines2 : List String) (h7 : lines2.length ≤ 7) :
    read_oel none = Except.ok (List.replicate 12 (OelEntry.num (-1))) ∧
    read_oel (some lines) = Except.ok
      (((tokenLine (lines.getD 7 (String.mk []))).drop 1).map OelEntry.str ++
        List.replicate 6 (OelEntry.num (-1))) ∧
    read_oel (some lines2) = Except.error "IndexError" := by
  refine ⟨rfl, ?_, ?_⟩
  · simp [read_oel, h8, h12]
  · simp [read_oel, show ¬ 7 < lines2.length from by omega]

/-- Witness for the amended `read_oel` theorem on a concrete eight-line
truncated file and a concrete one-line file. -/
theorem read_oel_recovery_witness :
    read_oel none = Except.ok (List.replicate 12 (OelEntry.num (-1))) ∧
    read_oel (some ["0", "1", "2", "3", "4", "5", "6", "KEP 1 2 3"]) = Except.ok
      (((tokenLine ((["0", "1", "2", "3", "4", "5", "6", "KEP 1 2 3"] :
          List String).getD 7 (String.mk []))).drop 1).map OelEntry.str ++
        List.replicate 6 (OelEntry.num (-1))) ∧
    read_oel (some ["truncate"]) = Except.error "IndexError" :=
  read_oel_recovery ["0", "1", "2", "3", "4", "5", "6", "KEP 1 2 3"]
    (by decide) (by decide) ["truncate"] (by decide)

end OrbFit

/-! ## Streaming orbit association
(src/fink_fat/streaming_associations/orbit_assoc.py) -/

namespace Streaming

/-- One row of the stored ephemerides parquet file. -/
structure EphemRow where
  ra : Rat
  dec : Rat
  epoch_jd : Rat
  ssoCandId : String
deriving DecidableEq, Repr

/-- One row of the stored orbital parquet file (the columns used by the
association tail). -/
structure OrbitRow where
  ssoCandId : String
  last_mag : Rat
  last_jd : Rat
  last_fid : Int
deriving DecidableEq, Repr

/-- The association state threaded through `orbit_association`: the roid
flags and the per-alert association outputs. -/
structure RoidState where
  flags : List Int
  estimator_id : List (List String)
  ffdistnr : List (List Rat)
deriving DecidableEq, Repr

/-- Minimum of a rational list (`np.min` over a nonempty array). -/
def listMinR : List Rat → Rat
  | [] => 0
  | x :: xs => xs.foldl min x

/-- Maximum of a rational list (`np.max` over a nonempty array). -/
def listMaxR : List Rat → Rat
  | [] => 0
  | x :: xs => xs.foldl max x

/-- Embedding of `ephem_window`
(src/fink_fat/streaming_associations/orbit_assoc.py, lines 199-247):
keep the ephemerides whose epoch lies in the Julian-date span of the
batch, then keep those falling in a healpix pixel occupied by an alert;
the healpix projection `ang2pix` (external library, NSIDE folded in) is
the parameter `pix`. -/
def ephem_window (pix : Rat → Rat → Int) (ephem_pdf : List EphemRow)
    (coord_alerts : List (Rat × Rat)) (jd_mask : List Rat) : List EphemRow :=
  let min_jd := listMinR jd_mask
  let max_jd := listMaxR jd_mask
  let e1 := ephem_pdf.filter (fun r =>
    decide (min_jd ≤ r.epoch_jd) && decide (r.epoch_jd ≤ max_jd))
  let alert_pix := coord_alerts.map (fun c => pix c.1 c.2)
  e1.filter (fun r => decide (pix r.ra r.dec ∈ alert_pix))

/-- Embedding of the control flow of `orbit_association`
(src/fink_fat/streaming_associations/orbit_assoc.py, lines 250-438).
The two parquet reads are the `Option` inputs (`none` models
`FileNotFoundError`); the association tail past line 380 (which uses
modules not under src/) is the parameter `assoc_rest`, reached only when
both files are present, the stored ephemerides are nonempty, and some
ephemeris survives the window filter; on every other path the input
state is returned unchanged. -/
def orbit_association (pix : Rat → Rat → Int)
    (ephem_file : Option (List EphemRow)) (orbit_file : Option (List OrbitRow))
    (coord_alerts : List (Rat × Rat)) (jd_unique : List Rat) (st : RoidState)
    (assoc_rest : List EphemRow → List OrbitRow → RoidState → RoidState) :
    RoidState :=
  match ephem_file with
  | none => st
  | some ephem_pdf =>
    match orbit_file with
    | none => st
    | some orbit_pdf =>
        if ephem_pdf.length ≠ 0 then
          let ephem_to_keep := ephem_window pix ephem_pdf coord_alerts jd_unique
          if ephem_to_keep.length = 0 then st
          else assoc_rest ephem_to_keep orbit_pdf st
        else st

/-- C10: `orbit_association` returns its association state (flags,
estimator ids, distances) unchanged whenever the ephemeris file is
missing, the orbital file is missing, the stored ephemerides are empty,
or no ephemeris survives the time/sky-pixel window filter. -/
theorem orbit_association_error_paths (pix : Rat → Rat → Int)
    (ephem_file : Option (List EphemRow)) (orbit_file : Option (List OrbitRow))
    (coord_alerts : List (Rat × Rat)) (jd_unique : List Rat) (st : RoidState)
    (assoc_rest : List EphemRow → List OrbitRow → RoidState → RoidState)
    (h : ephem_file = none ∨ orbit_file = none ∨
      (∃ e, ephem_file = some e ∧ e.length = 0) ∨
      (∃ e, ephem_file = some e ∧
        (ephem_window pix e coord_alerts jd_unique).length = 0)) :
    orbit_association pix ephem_file orbit_file coord_alerts jd_unique st assoc_rest =
      st := by
  rcases h with rfl | h | ⟨e, rfl, he⟩ | ⟨e, rfl, he⟩
  · rfl
  · cases ephem_file with
    | none => rfl
    | some e =>
        rw [h]
        rfl
  · cases orbit_file with
    | none => rfl
    | some o => simp [orbit_association, he]
  · cases orbit_file with
    | none => rfl
    | some o =>
        by_cases he0 : e.length = 0
        · simp [orbit_association, he0]
        · simp [orbit_association, he0, he]

/-- Witness for the error-path theorem: the ephemeris file is missing
and the tail function — which would erase the state — is not reached. -/
theorem orbit_association_error_paths_witness :
    orbit_association (fun _ _ => 0) none (some []) [] []
      (⟨[3], [["a"]], [[1]]⟩ : RoidState) (fun _ _ _ => ⟨[], [], []⟩) =
      (⟨[3], [["a"]], [[1]]⟩ : RoidState) :=
  orbit_association_error_paths (fun _ _ => 0) none (some []) [] []
    ⟨[3], [["a"]], [[1]]⟩ (fun _ _ _ => ⟨[], [], []⟩) (Or.inl rfl)

end Streaming

end AsteroidAssoc
